import Mathlib

/-!
Shallow embedding of the excel-file-processor repository
(src/src/components/ExcelProcessor.jsx and the identical logic in
src/unnamed/part_000).

Modelling conventions:

* A spreadsheet cell (as produced by the xlsx `sheet_to_json` decoding with
  `header: 1`) is modelled as `Option String`: `none` is an absent / blank
  cell (JS `undefined`, a hole in the row array), `some s` is a cell carried
  by its string coercion.  JS truthiness of a string cell is `s ≠ ""`; the
  rare case of a numeric cell equal to 0 (falsy in JS, while its rendering
  "0" is truthy) does not occur in any claim and is not distinguished.
* A thrown JS exception (the TypeError from calling a method on
  `null`/`undefined`) is modelled by `Option`: `none` is "an exception
  propagated"; the upload handler catches it and shows a generic alert.
* `Context` fields start as JS `null`, modelled as `none`.
-/

abbrev Cell := Option String

abbrev Row := List Cell

abbrev Sheet := List Row

/-- Truthiness of a cell value: `undefined` and `""` are falsy. -/
def cellTruthy : Cell → Bool
  | none => false
  | some s => s != ""

/-- JS template-literal coercion of a possibly missing value:
`undefined` prints as "undefined". -/
def jsTemplCell : Cell → String
  | none => "undefined"
  | some s => s

/-- JS template-literal coercion of a possibly null value:
`null` prints as "null". -/
def jsTemplNull : Option String → String
  | none => "null"
  | some s => s

/-- `x || d` on a (string) cell: the cell's string if truthy, else `d`. -/
def jsOrDefault (c : Cell) (d : String) : String :=
  match c with
  | some s => if s != "" then s else d
  | none => d

/-- `array[i]` for an integer index: negative or out-of-range indexing
yields `undefined`, as does a hole inside the array. -/
def cellAtInt (row : Row) (i : Int) : Cell :=
  match i with
  | Int.ofNat n => (row.get? n).getD none
  | Int.negSucc _ => none

/-- `row[context.packIndex]` where the index may still be `null`:
`row[null]` is `undefined` in JS. -/
def jsIndex (row : Row) (i : Option Int) : Cell :=
  match i with
  | none => none
  | some k => cellAtInt row k

/-- Strict equality `cell === needle` where the needle is a string
(`some s`) or `null` (`none`).  A missing cell (`undefined`) is strictly
equal to neither a string nor `null`. -/
def jsStrictEqCell (c : Cell) (needle : Option String) : Bool :=
  match c, needle with
  | some s, some t => s == t
  | _, _ => false

/-- `array.findIndex(cell => cell === needle)`: first strictly-equal
position, `-1` when absent. -/
def idxOfEq (l : Row) (needle : Option String) : Int :=
  match l.findIdx? (fun c => jsStrictEqCell c needle) with
  | some n => (n : Int)
  | none => -1

/-- `sheetData[j]?.[0]`: the first cell of row `j`, `undefined` when the
row or the cell is absent. -/
def firstCellAt (sd : List Row) (j : Nat) : Cell :=
  match sd.get? j with
  | some r => (r.get? 0).getD none
  | none => none

/-! ### Substring containment (JS `String.prototype.includes`) -/

/-- `pat.isPrefixOf`-based containment scan over a character list. -/
def listContainsSub (pat : List Char) : List Char → Bool
  | [] => pat.isEmpty
  | c :: rest => pat.isPrefixOf (c :: rest) || listContainsSub pat rest

/-- `s.includes(pat)`. -/
def strContains (s pat : String) : Bool :=
  listContainsSub pat.data s.data

/-! ### Regular-expression tests used by the source

All three regexes are used through `RegExp.prototype.test`, which performs
an **unanchored search**: the test passes when some substring of the input
matches the pattern. -/

/-- Line terminators excluded by `.` in a JS regex. -/
def isLineTerm (c : Char) : Bool :=
  c = '\n' || c = '\r' || c = (Char.ofNat 0x2028) || c = (Char.ofNat 0x2029)

/-- Search for `(.+)wood` starting from position 1, with `prev` being the
character before the current tail: `.+` needs at least one
non-line-terminator character before the literal "wood". -/
def woodMatchAux (prev : Char) : List Char → Bool
  | [] => false
  | c :: rest =>
      (!isLineTerm prev && "wood".data.isPrefixOf (c :: rest)) ||
        woodMatchAux c rest

/-- `new RegExp("(.+)wood").test(s)`. -/
def woodTest (s : String) : Bool :=
  match s.data with
  | [] => false
  | c :: rest => woodMatchAux c rest

/-- The `WOOD_TYPES` constant. -/
def WOOD_TYPES : List String := ["redwood", "whitewood"]

/-- The row-find predicate
`cell => WOOD_TYPES.some(wood => new RegExp("(.+)wood").test(cell))`.
Note the inner callback ignores `wood`; `some` over the two-element list is
just the regex test on the cell.  `test(undefined)` coerces to the string
"undefined", which contains no "wood". -/
def woodCellMatch (c : Cell) : Bool :=
  WOOD_TYPES.any (fun _wood =>
    match c with
    | some s => woodTest s
    | none => woodTest "undefined")

/-- First 8 characters are digits, then a literal dot, then a digit. -/
def packCheckAt (l : List Char) : Bool :=
  (l.take 8).length = 8 && (l.take 8).all Char.isDigit &&
    (match l.drop 8 with
     | '.' :: d :: _ => d.isDigit
     | _ => false)

/-- Search scan for `[0-9]{8}\.[0-9]`. -/
def packTestAux : List Char → Bool
  | [] => false
  | c :: rest => packCheckAt (c :: rest) || packTestAux rest

/-- `new RegExp("[0-9]{8}\\.[0-9]").test(s)` (unanchored search). -/
def packTest (s : String) : Bool :=
  packTestAux s.data

/-- Search scan for `[0-9]+\*[0-9]+`: containment of the full pattern is
equivalent to containment of a digit, a literal `*`, and a digit in a row. -/
def widthTestAux : List Char → Bool
  | a :: b :: c :: rest =>
      (a.isDigit && b = '*' && c.isDigit) || widthTestAux (b :: c :: rest)
  | _ => false

/-- `new RegExp(/[0-9]+\*[0-9]+/).test(s)` (unanchored search). -/
def widthTest (s : String) : Bool :=
  widthTestAux s.data

/-! ### Utility functions of the source -/

/-- `normalizeStatus` (total on strings; `status.includes` throws on a
`null` status, which is handled at the caller's type in `getItemObject`). -/
def normalizeStatus (status : String) : String :=
  if strContains status "S/F" then "SF"
  else if strContains status "IV" then "IV"
  else if status = "V" then "V"
  else status

/-- Loop body of `findNextNonEmptyCell`: return `array[i]` for the first
`i > index` whose cell is truthy.  Scanning every position but only
accepting those with `index < i` is equivalent to starting the JS loop at
`index + 1`. -/
def findNextAux (index : Int) : Nat → List Cell → Option String
  | _, [] => none
  | i, c :: rest =>
      if index < (i : Int) && cellTruthy c then c
      else findNextAux index (i + 1) rest

/-- `findNextNonEmptyCell(array, index)`: first truthy cell strictly after
`index`, `null` (`none`) when there is none. -/
def findNextNonEmptyCell (array : Row) (index : Int) : Option String :=
  findNextAux index 0 array

/-! ### Parse context and record construction -/

/-- The mutable context threaded through the row scan; every field starts
as JS `null`. -/
structure Context where
  woodType : Option String
  width : Option String
  status : Option String
  dimensions : Option Row
  packIndex : Option Int
deriving DecidableEq, Repr

def initContext : Context :=
  { woodType := none, width := none, status := none,
    dimensions := none, packIndex := none }

/-- `ID_PREFIXES[woodType]`: a JS object lookup that yields `undefined`
for any key other than the two wood types (including `null`). -/
def ID_PREFIXES_lookup : Option String → Option String
  | some s =>
      if s = "redwood" then some "R1"
      else if s = "whitewood" then some "W1"
      else none
  | none => none

/-- `s.replaceAll(c, "")` for a single-character pattern: every occurrence
of the character is deleted. -/
def replaceAllChar (s : String) (c : Char) : String :=
  ⟨s.data.filter (fun x => x != c)⟩

/-- One emitted record.  `packId` is `Number(cell)` with `none` as NaN;
`amount` is the raw next-non-blank cell (or `null`). -/
structure OutputRecord where
  id : String
  packId : Option ℚ
  amount : Option String
  status : String
deriving DecidableEq, Repr

/-! ### `Number(...)` coercion on string cells

Decimal string forms (optional sign, digits, optional fraction, optional
exponent) are parsed; the empty / all-whitespace string is 0; anything
else is NaN (`none`).  Hexadecimal/octal/binary literals and "Infinity"
are also mapped to `none`; no claim inspects the numeric value of a
`packId`, so this corner is never exercised. -/

def digitsVal (l : List Char) : Nat :=
  l.foldl (fun a c => a * 10 + (c.toNat - 48)) 0

def allDigits (l : List Char) : Bool :=
  l.all Char.isDigit

/-- Split a character list at the first occurrence of `c`. -/
def splitOnChar (c : Char) : List Char → Option (List Char × List Char)
  | [] => none
  | x :: r =>
      if x = c then some ([], r)
      else (splitOnChar c r).map (fun p => (x :: p.1, p.2))

/-- Split at the first exponent marker `e`/`E`. -/
def splitExp : List Char → List Char × Option (List Char)
  | [] => ([], none)
  | x :: r =>
      if x = 'e' || x = 'E' then ([], some r)
      else
        let p := splitExp r
        (x :: p.1, p.2)

/-- Mantissa: `digits`, `digits.digits`, `digits.` or `.digits`. -/
def parseDec (l : List Char) : Option ℚ :=
  match splitOnChar '.' l with
  | none => if l ≠ [] && allDigits l then some (digitsVal l) else none
  | some (ip, fp) =>
      if (ip ≠ [] || fp ≠ []) && allDigits ip && allDigits fp then
        some ((digitsVal ip : ℚ) + (digitsVal fp : ℚ) / ((10 : ℚ) ^ fp.length))
      else none

/-- Signed integer exponent part. -/
def parseExpInt (l : List Char) : Option Int :=
  match l with
  | '-' :: r => if r ≠ [] && allDigits r then some (-(digitsVal r : Int)) else none
  | '+' :: r => if r ≠ [] && allDigits r then some ((digitsVal r : Int)) else none
  | r => if r ≠ [] && allDigits r then some ((digitsVal r : Int)) else none

def parseDecExp (l : List Char) : Option ℚ :=
  match splitExp l with
  | (m, none) => parseDec m
  | (m, some e) =>
      match parseDec m, parseExpInt e with
      | some q, some z => some (q * (10 : ℚ) ^ z)
      | _, _ => none

def jsNumberString (s : String) : Option ℚ :=
  let t := s.trim
  if t = "" then some 0
  else
    match t.data with
    | '-' :: r => (parseDecExp r).map (fun q => -q)
    | '+' :: r => parseDecExp r
    | l => parseDecExp l

/-- `Number(cell)`: `Number(undefined)` is NaN. -/
def jsNumber (c : Cell) : Option ℚ :=
  match c with
  | none => none
  | some s => jsNumberString s

/-- `getItemObject(row, context)`.

* `amount` is `findNextNonEmptyCell(row, context.packIndex)`; the function
  is only called when `row[context.packIndex]` is truthy, so `packIndex`
  is an actual column; the `getD 0` default also reproduces JS `null + 1 = 1`
  for the unreachable `null` case.
* `amountIndex` is `row.findIndex(cell => cell === amount)`; when `amount`
  is `null`, no cell (`undefined` or string) is strictly equal to it.
* The id template is `` `${prefix}${width}${dims[amountIndex]}0` ``
  followed by `.replaceAll(".", "").replaceAll("*", "")`: note the literal
  `"0"` appended before stripping, and that a missing `dims[amountIndex]`
  stringifies as "undefined".
* A `null` `dimensions` (indexing throws) or a `null` `status`
  (`normalizeStatus` calls `.includes` on it) raises a TypeError: `none`. -/
def getItemObject (row : Row) (ctx : Context) : Option OutputRecord :=
  let amount := findNextNonEmptyCell row (ctx.packIndex.getD 0)
  let amountIndex : Int :=
    match row.findIdx? (fun c => jsStrictEqCell c amount) with
    | some n => (n : Int)
    | none => -1
  match ctx.dimensions, ctx.status with
  | some dims, some st =>
      some
        { id := replaceAllChar (replaceAllChar
            (jsTemplCell (ID_PREFIXES_lookup ctx.woodType) ++
              jsTemplNull ctx.width ++
              jsTemplCell (cellAtInt dims amountIndex) ++ "0") '.') '*'
        , packId := jsNumber (jsIndex row ctx.packIndex)
        , amount := amount
        , status := normalizeStatus st }
  | _, _ => none

/-! ### The row scan of `processWorkbook` -/

/-- The trailing width-update step of the row callback:
`sheetData[index + 1]?.[0]` overwrites `context.width` when truthy and
passing the `[0-9]+\*[0-9]+` search. -/
def widthUpdate (sheetData : List Row) (index : Nat) (ctx : Context) : Context :=
  match firstCellAt sheetData (index + 1) with
  | some s => if s != "" && widthTest s then { ctx with width := some s } else ctx
  | none => ctx

/-- The non-header part of the row callback: emit a record when the cell at
`packIndex` is truthy and passes the `[0-9]{8}\.[0-9]` search, then apply
the width update. -/
def processDataRow (sheetData : List Row) (index : Nat) (row : Row) (ctx : Context) :
    Option (Context × Option OutputRecord) :=
  match jsIndex row ctx.packIndex with
  | some s =>
      if s != "" && packTest s then
        match getItemObject row ctx with
        | none => none
        | some rec => some (widthUpdate sheetData index ctx, some rec)
      else some (widthUpdate sheetData index ctx, none)
  | none => some (widthUpdate sheetData index ctx, none)

/-- One iteration of `sheetData.forEach((row, index) => ...)`.  Returns the
context after the row and the record pushed by the row (if any); `none`
models a thrown TypeError aborting the whole processing. -/
def processRow (sheetData : List Row) (index : Nat) (row : Row) (ctx : Context) :
    Option (Context × Option OutputRecord) :=
  match row.find? woodCellMatch with
  | some woodType =>
      if cellTruthy woodType then
        -- header row: rebuild the whole context and return early
        let woodTypeIndex := idxOfEq row woodType
        let dims := (sheetData.get? (index + 1)).getD []
        some
          ({ woodType := woodType
           , dimensions := some dims
           , width := some (jsOrDefault (firstCellAt sheetData (index + 2)) "")
           , status := findNextNonEmptyCell row woodTypeIndex
           , packIndex := some (idxOfEq dims (some "PACK")) }, none)
      else
        processDataRow sheetData index row ctx
  | none => processDataRow sheetData index row ctx

/-- `sheetData.forEach` from row index `i` over the remaining rows. -/
def runRows (sheetData : List Row) : Nat → List Row → Context →
    Option (Context × List OutputRecord)
  | _, [], ctx => some (ctx, [])
  | i, row :: rest, ctx =>
      match processRow sheetData i row ctx with
      | none => none
      | some (ctx', rec?) =>
          match runRows sheetData (i + 1) rest ctx' with
          | none => none
          | some (ctxF, out) => some (ctxF, rec?.toList ++ out)

/-- One sheet's scan. -/
def processSheet (sheetData : List Row) (ctx : Context) :
    Option (Context × List OutputRecord) :=
  runRows sheetData 0 sheetData ctx

/-- `sheetsList.forEach(...)`: the context is threaded through the sheets
in order (it is *not* reset at a sheet boundary), and all records go into
one output list. -/
def processSheets : List Sheet → Context → Option (Context × List OutputRecord)
  | [], ctx => some (ctx, [])
  | s :: ss, ctx =>
      match processSheet s ctx with
      | none => none
      | some (c1, o1) =>
          match processSheets ss c1 with
          | none => none
          | some (c2, o2) => some (c2, o1 ++ o2)

/-- `processWorkbook`: sheet names only select the sheets in declaration
order, so a workbook is modelled as the ordered list of decoded sheets.
`some out` is the list handed to `setData`; `none` is an exception
propagating to the upload handler's catch block. -/
def processWorkbook (wb : List Sheet) : Option (List OutputRecord) :=
  (processSheets wb initContext).map (fun p => p.2)

/-! ### Export adapter

The xlsx calls are modelled by their documented contracts:
`json_to_sheet` derives the header row from the keys of the first object
(records built by `getItemObject` always have keys
`id, packId, amount, status` in that insertion order), `book_new` is an
empty workbook, `book_append_sheet` appends a named sheet, `writeFile`
saves under the given file name. -/

/-- Keys of an `OutputRecord` object literal, in insertion order. -/
def recordKeys : List String := ["id", "packId", "amount", "status"]

structure ExportSheet where
  header : List String
  rows : List OutputRecord
deriving DecidableEq, Repr

def json_to_sheet (rows : List OutputRecord) : ExportSheet :=
  { header := match rows with | [] => [] | _ :: _ => recordKeys
  , rows := rows }

def book_new : List (String × ExportSheet) := []

def book_append_sheet (wb : List (String × ExportSheet)) (ws : ExportSheet)
    (name : String) : List (String × ExportSheet) :=
  wb ++ [(name, ws)]

/-- Observable outcome of `exportToExcel`. -/
inductive ExportEffect where
  | alertNoData : ExportEffect
  | fileWritten : String → List (String × ExportSheet) → ExportEffect
deriving DecidableEq, Repr

def exportToExcel (data : List OutputRecord) : ExportEffect :=
  if data.length = 0 then ExportEffect.alertNoData
  else
    ExportEffect.fileWritten "processed_output.xlsx"
      (book_append_sheet book_new (json_to_sheet data) "Processed Data")

/-! ## Bridging lemmas -/

theorem charPrefix_iff (p : List Char) : ∀ l : List Char,
    p.isPrefixOf l = true ↔ ∃ t, l = p ++ t := by
  induction p with
  | nil => intro l; simp [List.isPrefixOf]
  | cons a p ih =>
    intro l
    cases l with
    | nil => simp [List.isPrefixOf]
    | cons b l =>
      simp only [List.isPrefixOf, Bool.and_eq_true, beq_iff_eq, ih, List.cons_append,
        List.cons.injEq]
      constructor
      · rintro ⟨hab, t, ht⟩
        exact ⟨t, hab.symm, ht⟩
      · rintro ⟨t, hab, ht⟩
        exact ⟨hab.symm, t, ht⟩

theorem containsSub_iff (pat : List Char) : ∀ l : List Char,
    listContainsSub pat l = true ↔ ∃ u v, l = u ++ pat ++ v := by
  intro l
  induction l with
  | nil =>
    cases pat with
    | nil => simp [listContainsSub]
    | cons a p => simp [listContainsSub]
  | cons c rest ih =>
    simp only [listContainsSub, Bool.or_eq_true, charPrefix_iff, ih]
    constructor
    · rintro (⟨t, ht⟩ | ⟨u, v, huv⟩)
      · exact ⟨[], t, by simp [ht]⟩
      · exact ⟨c :: u, v, by simp [huv]⟩
    · rintro ⟨u, v, huv⟩
      cases u with
      | nil => exact Or.inl ⟨v, by simpa using huv⟩
      | cons x u =>
        simp only [List.cons_append, List.cons.injEq] at huv
        exact Or.inr ⟨u, v, huv.2⟩

theorem strContains_iff (s pat : String) :
    strContains s pat = true ↔ ∃ u v, s.data = u ++ pat.data ++ v :=
  containsSub_iff pat.data s.data

/-! ## C6: status normalization -/

/-- C6: `normalizeStatus` is total on strings and applies the first matching
rule in order — a string containing "S/F" gives "SF" (even when it also
contains "IV"); otherwise containing "IV" gives "IV"; otherwise exactly "V"
gives "V"; otherwise the input is returned unchanged. -/
theorem normalizeStatus_order (s : String) :
    ((∃ u v, s.data = u ++ "S/F".data ++ v) → normalizeStatus s = "SF") ∧
    (¬ (∃ u v, s.data = u ++ "S/F".data ++ v) →
      (∃ u v, s.data = u ++ "IV".data ++ v) → normalizeStatus s = "IV") ∧
    (¬ (∃ u v, s.data = u ++ "S/F".data ++ v) →
      ¬ (∃ u v, s.data = u ++ "IV".data ++ v) → s = "V" → normalizeStatus s = "V") ∧
    (¬ (∃ u v, s.data = u ++ "S/F".data ++ v) →
      ¬ (∃ u v, s.data = u ++ "IV".data ++ v) → s ≠ "V" → normalizeStatus s = s) ∧
    ((∃ u v, s.data = u ++ "S/F".data ++ v) → (∃ u v, s.data = u ++ "IV".data ++ v) →
      normalizeStatus s = "SF") := by
  have hSF := strContains_iff s "S/F"
  have hIV := strContains_iff s "IV"
  refine ⟨?_, ?_, ?_, ?_, ?_⟩
  · intro h
    simp [normalizeStatus, hSF.mpr h]
  · intro h1 h2
    have e1 : strContains s "S/F" = false := by
      cases hc : strContains s "S/F"
      · rfl
      · exact absurd (hSF.mp hc) h1
    simp [normalizeStatus, e1, hIV.mpr h2]
  · intro h1 h2 h3
    subst h3
    decide
  · intro h1 h2 h3
    have e1 : strContains s "S/F" = false := by
      cases hc : strContains s "S/F"
      · rfl
      · exact absurd (hSF.mp hc) h1
    have e2 : strContains s "IV" = false := by
      cases hc : strContains s "IV"
      · rfl
      · exact absurd (hIV.mp hc) h2
    simp [normalizeStatus, e1, e2, h3]
  · intro h1 _h2
    simp [normalizeStatus, hSF.mpr h1]

/-- Witness for C6: the four sample normalizations of the spec, obtained by
applying `normalizeStatus_order` at each concrete string. -/
theorem normalizeStatus_order_witness :
    normalizeStatus "Some S/F IV text" = "SF" ∧
    normalizeStatus "has IV only" = "IV" ∧
    normalizeStatus "V" = "V" ∧
    normalizeStatus "other" = "other" := by
  refine ⟨?_, ?_, ?_, ?_⟩
  · exact (normalizeStatus_order "Some S/F IV text").1
      ⟨"Some ".data, " IV text".data, by decide⟩
  · exact (normalizeStatus_order "has IV only").2.1
      (by intro h; exact absurd ((strContains_iff _ _).mpr h) (by decide))
      ⟨"has ".data, " only".data, by decide⟩
  · exact (normalizeStatus_order "V").2.2.1
      (by intro h; exact absurd ((strContains_iff _ _).mpr h) (by decide))
      (by intro h; exact absurd ((strContains_iff _ _).mpr h) (by decide)) rfl
  · exact (normalizeStatus_order "other").2.2.2.1
      (by intro h; exact absurd ((strContains_iff _ _).mpr h) (by decide))
      (by intro h; exact absurd ((strContains_iff _ _).mpr h) (by decide)) (by decide)

/-! ## C7: findNextNonEmptyCell -/

theorem findNextAux_eq_enumFrom (idx : Int) (l : List Cell) : ∀ n : Nat,
    findNextAux idx n l =
      ((List.enumFrom n l).find?
          (fun p => decide (idx < (p.1 : Int)) && cellTruthy p.2)).bind
        (fun p => p.2) := by
  induction l with
  | nil => intro n; rfl
  | cons c rest ih =>
    intro n
    by_cases h : (decide (idx < (n : Int)) && cellTruthy c) = true
    · simp [findNextAux, List.enumFrom, List.find?_cons, h]
    · simp only [Bool.not_eq_true] at h
      simp [findNextAux, List.enumFrom, List.find?_cons, h, ih]

/-- A demonstration context: the state left behind by the section header of
the spec's worked example (woodType "redwood", width "50*60", status "V",
dimensions `["PACK","100","200"]`, packIndex 0). -/
def demoCtx : Context :=
  { woodType := some "redwood"
  , width := some "50*60"
  , status := some "V"
  , dimensions := some [some "PACK", some "100", some "200"]
  , packIndex := some 0 }

/-- C7: `findNextNonEmptyCell` returns the first truthy element at a
position strictly greater than the given index (skipping falsy cells) and
`null` when none exists; consequently an emitted record's `amount` is the
next non-blank cell after `packIndex` in its row (`null` if none). -/
theorem findNextNonEmptyCell_spec :
    (∀ (array : Row) (index : Int),
      findNextNonEmptyCell array index =
        (array.enum.find?
            (fun p => decide (index < (p.1 : Int)) && cellTruthy p.2)).bind
          (fun p => p.2)) ∧
    (∀ (row : Row) (ctx : Context) (k : Int) (rec : OutputRecord),
      ctx.packIndex = some k → getItemObject row ctx = some rec →
      rec.amount = findNextNonEmptyCell row k) := by
  constructor
  · intro a idx
    exact findNextAux_eq_enumFrom idx a 0
  · intro row ctx k rec hk h
    unfold getItemObject at h
    rw [hk] at h
    cases hd : ctx.dimensions with
    | none => rw [hd] at h; exact absurd h (by simp)
    | some dims =>
      cases hs : ctx.status with
      | none => rw [hd, hs] at h; exact absurd h (by simp)
      | some st =>
        rw [hd, hs] at h
        simp only [Option.some.injEq] at h
        rw [← h]
        rfl

/-- Witness for C7: the spec's own example array (skipping the falsy "" and
`undefined` cells to reach "b"), and a concrete emitted record whose
`amount` is `findNextNonEmptyCell` of its row after `packIndex` 0. -/
theorem findNextNonEmptyCell_spec_witness :
    findNextNonEmptyCell [some "a", some "", none, some "b"] 0 = some "b" ∧
    (getItemObject [some "20231005.2", some "", some "150"] demoCtx).map
        (fun r => r.amount) =
      some (findNextNonEmptyCell [some "20231005.2", some "", some "150"] 0) := by
  constructor
  · exact (findNextNonEmptyCell_spec.1 [some "a", some "", none, some "b"] 0).trans rfl
  · have h := findNextNonEmptyCell_spec.2 [some "20231005.2", some "", some "150"]
      demoCtx 0
      { id := "R150602000", packId := jsNumberString "20231005.2"
      , amount := some "150", status := "V" } rfl rfl
    rw [show getItemObject [some "20231005.2", some "", some "150"] demoCtx =
        some { id := "R150602000", packId := jsNumberString "20231005.2"
             , amount := some "150", status := "V" } from rfl]
    rw [Option.map_some']
    rw [h]

/-! ## C9: export adapter -/

/-- C9: exporting an empty record list surfaces the "nothing to export"
notice and writes no file; exporting a non-empty list writes exactly one
sheet named "Processed Data" whose header row is the first record's keys
`id, packId, amount, status` in that order. -/
theorem exportToExcel_spec :
    exportToExcel [] = ExportEffect.alertNoData ∧
    ∀ data : List OutputRecord, data ≠ [] →
      exportToExcel data =
        ExportEffect.fileWritten "processed_output.xlsx"
          [("Processed Data",
            { header := ["id", "packId", "amount", "status"], rows := data })] := by
  constructor
  · rfl
  · intro data hne
    cases data with
    | nil => exact absurd rfl hne
    | cons r rest =>
      simp [exportToExcel, book_append_sheet, book_new, json_to_sheet, recordKeys]

/-- Witness for C9: exporting one concrete record writes the single
"Processed Data" sheet with the fixed header row. -/
theorem exportToExcel_spec_witness :
    exportToExcel [{ id := "R150602000", packId := jsNumberString "20231005.2"
                   , amount := some "150", status := "V" }] =
      ExportEffect.fileWritten "processed_output.xlsx"
        [("Processed Data",
          { header := ["id", "packId", "amount", "status"]
          , rows := [{ id := "R150602000", packId := jsNumberString "20231005.2"
                     , amount := some "150", status := "V" }] })] :=
  exportToExcel_spec.2 _ (by simp)

/-! ## C10: emission is not total (crash on a null status) -/

/-- C10: there is a workbook — a section header with no non-blank cell
after the matched wood-type cell (captured status `null`), followed by a
row passing data-row recognition — on which processing throws (the
`normalizeStatus` call receives `null`) instead of emitting a record or
skipping the row.  The second conjunct isolates the failing call:
`getItemObject` under the header's context (status `none`) raises. -/
theorem processWorkbook_null_status_crash :
    processWorkbook [[ [some "xwood"], [some "PACK"], [some "20231001.5"] ]] = none ∧
    getItemObject [some "20231001.5"]
      { woodType := some "xwood", width := some "20231001.5", status := none
      , dimensions := some [some "PACK"], packIndex := some 0 } = none := by
  exact ⟨rfl, rfl⟩

/-! ## C8: workbooks with no section header -/

theorem widthUpdate_packIndex (sd : List Row) (i : Nat) (ctx : Context) :
    (widthUpdate sd i ctx).packIndex = ctx.packIndex := by
  unfold widthUpdate
  cases firstCellAt sd (i + 1) with
  | none => rfl
  | some s =>
    by_cases h : (s != "" && widthTest s) = true
    · simp [h]
    · simp only [Bool.not_eq_true] at h
      simp [h]

theorem processRow_noHeader_noPack (sd : List Row) (i : Nat) (row : Row) (ctx : Context)
    (hw : row.find? woodCellMatch = none) (hp : ctx.packIndex = none) :
    processRow sd i row ctx = some (widthUpdate sd i ctx, none) := by
  unfold processRow
  rw [hw]
  unfold processDataRow
  rw [hp]
  rfl

theorem runRows_noHeader_noPack (sd : List Row) (rows : List Row) :
    ∀ (i : Nat) (ctx : Context),
      (∀ r ∈ rows, r.find? woodCellMatch = none) → ctx.packIndex = none →
      ∃ ctxF, runRows sd i rows ctx = some (ctxF, []) ∧ ctxF.packIndex = none := by
  induction rows with
  | nil => intro i ctx _ hp; exact ⟨ctx, rfl, hp⟩
  | cons row rest ih =>
    intro i ctx h hp
    have hrow := h row (List.mem_cons_self row rest)
    have hrest : ∀ r ∈ rest, r.find? woodCellMatch = none :=
      fun r hr => h r (List.mem_cons_of_mem row hr)
    have hp' : (widthUpdate sd i ctx).packIndex = none :=
      (widthUpdate_packIndex sd i ctx).trans hp
    obtain ⟨ctxF, hrun, hF⟩ := ih (i + 1) (widthUpdate sd i ctx) hrest hp'
    refine ⟨ctxF, ?_, hF⟩
    unfold runRows
    rw [processRow_noHeader_noPack sd i row ctx hrow hp]
    simp [hrun]

theorem processSheets_noHeader (wb : List Sheet) :
    ∀ ctx : Context,
      (∀ s ∈ wb, ∀ r ∈ s, r.find? woodCellMatch = none) → ctx.packIndex = none →
      ∃ ctxF, processSheets wb ctx = some (ctxF, []) ∧ ctxF.packIndex = none := by
  induction wb with
  | nil => intro ctx _ hp; exact ⟨ctx, rfl, hp⟩
  | cons s ss ih =>
    intro ctx h hp
    obtain ⟨c1, hs1, hp1⟩ := runRows_noHeader_noPack s s 0 ctx
      (h s (List.mem_cons_self s ss)) hp
    obtain ⟨c2, hs2, hp2⟩ := ih c1
      (fun t ht r hr => h t (List.mem_cons_of_mem s ht) r hr) hp1
    refine ⟨c2, ?_, hp2⟩
    unfold processSheets
    unfold processSheet
    rw [hs1]
    simp [hs2]

/-- C8: a workbook with no section-header row (no cell of any row passes
the wood-type test) is processed without error and emits no records:
`packIndex` stays unset, every row fails data-row recognition, and the
output is the empty list. -/
theorem processWorkbook_noHeader_empty (wb : List Sheet)
    (h : ∀ s ∈ wb, ∀ r ∈ s, ∀ c ∈ r, woodCellMatch c = false) :
    processWorkbook wb = some [] := by
  have h' : ∀ s ∈ wb, ∀ r ∈ s, r.find? woodCellMatch = none := by
    intro s hs r hr
    rw [List.find?_eq_none]
    intro c hc
    simp [h s hs r hr c hc]
  obtain ⟨ctxF, hrun, _⟩ := processSheets_noHeader wb initContext h' rfl
  unfold processWorkbook
  rw [hrun]
  rfl

/-- Witness for C8: a small two-sheet workbook with rows but no wood-type
cell anywhere processes to the empty output. -/
theorem processWorkbook_noHeader_empty_witness :
    processWorkbook [[[some "hello", some "PACK"], [some "20231001.5"]], [[none]]] =
      some [] :=
  processWorkbook_noHeader_empty _ (by decide)

/-! ## C1: data-row recognition -/

theorem getItemObject_isSome (row : Row) (ctx : Context) (d : Row) (st : String)
    (hd : ctx.dimensions = some d) (hst : ctx.status = some st) :
    ∃ rec, getItemObject row ctx = some rec := by
  unfold getItemObject
  rw [hd, hst]
  exact ⟨_, rfl⟩

/-- C1 (amended): on a non-header row processed under a context whose
`packIndex` designates a column (and whose captured status is non-null, so
emission does not throw — see C10), a record is emitted iff the cell at
`packIndex` is present, non-blank, and **contains a substring** of eight
digits, a literal dot and a digit (the unanchored `test` of
`[0-9]{8}\.[0-9]`), not iff the whole cell has that form. -/
theorem dataRow_emission_iff (sd : List Row) (index : Nat) (row : Row) (ctx : Context)
    (k : Int) (st : String) (d : Row)
    (hw : row.find? woodCellMatch = none)
    (hk : ctx.packIndex = some k) (_hk0 : 0 ≤ k)
    (hst : ctx.status = some st) (hd : ctx.dimensions = some d) :
    ∃ (ctx' : Context) (rec? : Option OutputRecord),
      processRow sd index row ctx = some (ctx', rec?) ∧
      (rec? ≠ none ↔ ∃ s, cellAtInt row k = some s ∧ s ≠ "" ∧ packTest s = true) := by
  unfold processRow
  rw [hw]
  unfold processDataRow
  rw [hk]
  cases hc : cellAtInt row k with
  | none =>
    refine ⟨widthUpdate sd index ctx, none, ?_, ?_⟩
    · simp [jsIndex, hc]
    · simp [hc]
  | some s =>
    by_cases hcond : (s != "" && packTest s) = true
    · obtain ⟨rec, hrec⟩ := getItemObject_isSome row ctx d st hd hst
      have hcond' : (s != "") = true ∧ packTest s = true := by
        rw [← Bool.and_eq_true]
        exact hcond
      have hs : s ≠ "" := by simpa using hcond'.1
      refine ⟨widthUpdate sd index ctx, some rec, ?_, ?_⟩
      · simp [jsIndex, hc, hcond, hrec]
      · constructor
        · intro _
          exact ⟨s, rfl, hs, hcond'.2⟩
        · intro _
          simp
    · refine ⟨widthUpdate sd index ctx, none, ?_, ?_⟩
      · simp only [jsIndex, hc]
        simp [hcond]
      · constructor
        · intro hx
          exact absurd rfl hx
        · rintro ⟨s', hs', hne, hp⟩
          injection hs' with e
          subst e
          have : (s != "" && packTest s) = true := by
            rw [Bool.and_eq_true]
            exact ⟨by simpa using hne, hp⟩
          exact absurd this hcond

/-- Witness for C1 (amended): a concrete non-header row under the demo
context, where the pack cell "20231001.5" is emitted. -/
theorem dataRow_emission_iff_witness :
    ∃ (ctx' : Context) (rec? : Option OutputRecord),
      processRow [[]] 0 [some "20231001.5"] demoCtx = some (ctx', rec?) ∧
      (rec? ≠ none ↔
        ∃ s, cellAtInt [some "20231001.5"] 0 = some s ∧ s ≠ "" ∧ packTest s = true) :=
  dataRow_emission_iff [[]] 0 [some "20231001.5"] demoCtx 0 "V"
    [some "PACK", some "100", some "200"] rfl rfl (by decide) rfl rfl

/-- The claim's pattern read as a whole-string match: exactly 8 digits, a
literal dot, then exactly one digit, and nothing else. -/
def specPackFull (s : String) : Bool :=
  match s.data with
  | [a, b, c, d, e, f, g, h, dot, i] =>
      a.isDigit && b.isDigit && c.isDigit && d.isDigit && e.isDigit &&
        f.isDigit && g.isDigit && h.isDigit && dot = '.' && i.isDigit
  | _ => false

def c1wb : List Sheet :=
  [[ [some "", some "redwood", some "V"]
   , [some "PACK", some "100", some "200"]
   , [some "50*60"]
   , [some "20231001.55", some "", some "150"] ]]

def c1rec : OutputRecord :=
  { id := "R150602000", packId := jsNumberString "20231001.55"
  , amount := some "150", status := "V" }

/-- C1 fails as stated: the pack cell "20231001.55" is not "exactly 8
digits, a dot, exactly one digit" (it has two digits after the dot), yet
the code's unanchored regex `test` accepts it and the row emits a record. -/
theorem dataRow_pattern_counterexample :
    processWorkbook c1wb = some [c1rec] ∧ specPackFull "20231001.55" = false :=
  ⟨rfl, rfl⟩

/-! ## C5: non-header rows only update width -/

theorem widthUpdate_frame (sd : List Row) (i : Nat) (ctx : Context) :
    (widthUpdate sd i ctx).woodType = ctx.woodType ∧
    (widthUpdate sd i ctx).status = ctx.status ∧
    (widthUpdate sd i ctx).dimensions = ctx.dimensions ∧
    (widthUpdate sd i ctx).packIndex = ctx.packIndex := by
  unfold widthUpdate
  cases firstCellAt sd (i + 1) with
  | none => exact ⟨rfl, rfl, rfl, rfl⟩
  | some s =>
    by_cases h : (s != "" && widthTest s) = true
    · simp [h]
    · simp only [Bool.not_eq_true] at h
      simp [h]

theorem widthUpdate_width (sd : List Row) (i : Nat) (ctx : Context) :
    (widthUpdate sd i ctx).width =
      (match firstCellAt sd (i + 1) with
       | some s => if s ≠ "" ∧ widthTest s = true then some s else ctx.width
       | none => ctx.width) := by
  unfold widthUpdate
  cases firstCellAt sd (i + 1) with
  | none => rfl
  | some s =>
    by_cases h : (s != "" && widthTest s) = true
    · have h' : s ≠ "" ∧ widthTest s = true := by
        rw [Bool.and_eq_true] at h
        exact ⟨by simpa using h.1, h.2⟩
      simp [h, h']
    · have h' : ¬(s ≠ "" ∧ widthTest s = true) := by
        intro hx
        exact h (by rw [Bool.and_eq_true]; exact ⟨by simpa using hx.1, hx.2⟩)
      simp only [Bool.not_eq_true] at h
      simp [h, h']

theorem processRow_nonHeader_eq (sd : List Row) (index : Nat) (row : Row)
    (ctx : Context) (hw : row.find? woodCellMatch = none) :
    processRow sd index row ctx = processDataRow sd index row ctx := by
  unfold processRow
  rw [hw]

/-- C5 (amended): on every processed non-header row, `woodType`, `status`,
`dimensions` and `packIndex` are unchanged, and `width` is overwritten with
the next row's first cell exactly when that cell is truthy and **contains**
a digits-`*`-digits substring (the unanchored `test` of `[0-9]+\*[0-9]+`),
not only when the whole cell has that form. -/
theorem nonHeader_frame (sd : List Row) (index : Nat) (row : Row) (ctx ctx' : Context)
    (rec? : Option OutputRecord)
    (hw : row.find? woodCellMatch = none)
    (h : processRow sd index row ctx = some (ctx', rec?)) :
    ctx'.woodType = ctx.woodType ∧ ctx'.status = ctx.status ∧
    ctx'.dimensions = ctx.dimensions ∧ ctx'.packIndex = ctx.packIndex ∧
    ctx'.width =
      (match firstCellAt sd (index + 1) with
       | some s => if s ≠ "" ∧ widthTest s = true then some s else ctx.width
       | none => ctx.width) := by
  suffices hctx : ctx' = widthUpdate sd index ctx by
    rw [hctx]
    exact ⟨(widthUpdate_frame sd index ctx).1, (widthUpdate_frame sd index ctx).2.1,
      (widthUpdate_frame sd index ctx).2.2.1, (widthUpdate_frame sd index ctx).2.2.2,
      widthUpdate_width sd index ctx⟩
  rw [processRow_nonHeader_eq sd index row ctx hw] at h
  unfold processDataRow at h
  split at h
  · split at h
    · split at h
      · exact absurd h (by simp)
      · simp only [Option.some.injEq, Prod.mk.injEq] at h
        exact h.1.symm
    · simp only [Option.some.injEq, Prod.mk.injEq] at h
      exact h.1.symm
  · simp only [Option.some.injEq, Prod.mk.injEq] at h
    exact h.1.symm

/-- Witness for C5 (amended): an empty non-header row whose successor row
starts with "7*8" overwrites the demo context's width and nothing else. -/
theorem nonHeader_frame_witness :
    ({ demoCtx with width := some "7*8" } : Context).woodType = demoCtx.woodType ∧
    ({ demoCtx with width := some "7*8" } : Context).status = demoCtx.status ∧
    ({ demoCtx with width := some "7*8" } : Context).dimensions = demoCtx.dimensions ∧
    ({ demoCtx with width := some "7*8" } : Context).packIndex = demoCtx.packIndex ∧
    ({ demoCtx with width := some "7*8" } : Context).width =
      (match firstCellAt [[], [some "7*8"]] (0 + 1) with
       | some s => if s ≠ "" ∧ widthTest s = true then some s else demoCtx.width
       | none => demoCtx.width) :=
  nonHeader_frame [[], [some "7*8"]] 0 [] demoCtx
    { demoCtx with width := some "7*8" } none rfl rfl

/-- The claim's width pattern read as a whole-string match: one or more
digits, a literal `*`, one or more digits, and nothing else. -/
def specWidthFull (s : String) : Bool :=
  match splitOnChar '*' s.data with
  | some (a, b) => a ≠ [] && allDigits a && b ≠ [] && allDigits b
  | none => false

/-- C5 fails as stated: the next row's first cell "x100*200y" is not of the
whole-string form digits-`*`-digits, yet the unanchored `test` accepts it
and `width` is overwritten with it. -/
theorem width_update_counterexample :
    processRow [[], [some "x100*200y"]] 0 [] initContext =
      some ({ initContext with width := some "x100*200y" }, none) ∧
    specWidthFull "x100*200y" = false :=
  ⟨rfl, rfl⟩

/-! ## C3: section-header rows replace the whole context -/

theorem jsStrictEqCell_some (c : Cell) (v : String) :
    jsStrictEqCell c (some v) = decide (c = some v) := by
  cases c with
  | none => simp [jsStrictEqCell]
  | some s =>
    by_cases hsv : s = v
    · simp [jsStrictEqCell, hsv]
    · simp [jsStrictEqCell, hsv]

theorem jsOrDefault_empty (c : Cell) : jsOrDefault c "" = c.getD "" := by
  cases c with
  | none => rfl
  | some s =>
    by_cases hs : s = ""
    · simp [jsOrDefault, hs]
    · simp [jsOrDefault, hs]

/-- `findIndex(cell === v)` after `find?` returned `v` agrees with the
index of the first cell satisfying the original predicate: an earlier cell
strictly equal to `v` would itself have satisfied the predicate. -/
theorem findIdx?_of_find? (p : Cell → Bool) (hp : p none = false) :
    ∀ (l : Row) (c : Cell), l.find? p = some c → ∀ i : Nat,
      l.findIdx? (fun x => jsStrictEqCell x c) i = l.findIdx? p i := by
  intro l
  induction l with
  | nil => intro c hc _i; exact absurd hc (by simp)
  | cons a rest ih =>
    intro c hc i
    by_cases hpa : p a = true
    · have hca : a = c := by
        simp only [List.find?_cons, hpa] at hc
        exact Option.some.inj hc
      subst hca
      have ha : jsStrictEqCell a a = true := by
        cases a with
        | none => exact absurd hpa (by rw [hp]; simp)
        | some s => simp [jsStrictEqCell]
      simp [List.findIdx?_cons, hpa, ha]
    · have hpa' : p a = false := by
        cases hpc : p a
        · rfl
        · exact absurd hpc hpa
      have hc' : rest.find? p = some c := by
        simp only [List.find?_cons, hpa'] at hc
        exact hc
      have hne : jsStrictEqCell a c = false := by
        cases a with
        | none => cases c <;> rfl
        | some s =>
          cases c with
          | none => rfl
          | some t =>
            by_cases hst : s = t
            · subst hst
              have hpc : p (some s) = true := List.find?_some hc'
              exact absurd hpc (by rw [hpa']; simp)
            · simp [jsStrictEqCell, hst]
      simp only [List.findIdx?_cons, hpa', hne, Bool.false_eq_true, if_false,
        List.findIdx?_start_succ]
      rw [ih c hc' 0]

theorem idxOfEq_of_find? (p : Cell → Bool) (hp : p none = false) (l : Row) (c : Cell)
    (hc : l.find? p = some c) :
    idxOfEq l c = (match l.findIdx? p with | some n => (n : Int) | none => -1) := by
  unfold idxOfEq
  rw [findIdx?_of_find? p hp l c hc 0]

/-- C3: a row with a cell passing the wood-type test replaces the entire
context in one step — `woodType` becomes the matched cell, `dimensions`
the next row (empty when absent), `width` the first cell of the row two
below ("" when absent), `status` the next non-blank cell after the matched
cell, `packIndex` the index of the cell strictly equal to "PACK" in the
new dimensions row (-1 when absent) — and the header row emits no record
and performs no width update (early return). -/
theorem header_row_resets_context (sd : List Row) (index : Nat) (row : Row)
    (ctx : Context) (w : String) (n : Nat)
    (hfind : row.find? woodCellMatch = some (some w))
    (hn : row.findIdx? woodCellMatch = some n) :
    processRow sd index row ctx =
      some
        ({ woodType := some w
         , width := some ((firstCellAt sd (index + 2)).getD "")
         , status := findNextNonEmptyCell row (n : Int)
         , dimensions := some ((sd.get? (index + 1)).getD [])
         , packIndex := some
             (match ((sd.get? (index + 1)).getD []).findIdx?
                 (fun c => decide (c = some "PACK")) with
              | some m => (m : Int)
              | none => -1) }, none) := by
  have hwt : woodCellMatch (some w) = true := List.find?_some hfind
  have hwne : w ≠ "" := by
    intro e
    subst e
    exact absurd hwt (by decide)
  have hct : cellTruthy (some w) = true := by simp [cellTruthy, hwne]
  have e_idx : idxOfEq row (some w) = (n : Int) := by
    rw [idxOfEq_of_find? woodCellMatch (by decide) row (some w) hfind, hn]
  have e_pack : ∀ dims : Row, idxOfEq dims (some "PACK") =
      (match dims.findIdx? (fun c => decide (c = some "PACK")) with
       | some m => (m : Int)
       | none => -1) := by
    intro dims
    unfold idxOfEq
    rw [show (fun c => jsStrictEqCell c (some "PACK")) =
        (fun c => decide (c = some "PACK")) from
      funext (fun c => jsStrictEqCell_some c "PACK")]
  unfold processRow
  rw [hfind]
  simp only [hct, if_true]
  rw [e_idx, e_pack, jsOrDefault_empty]

def c3sd : List Row :=
  [[some "", some "redwood", some "V"], [some "PACK"], [some "7*7"]]

/-- Witness for C3: the concrete header row `["", "redwood", "V"]` with a
"PACK" dimensions row below and "7*7" two below replaces the fresh context
in one step and emits nothing. -/
theorem header_row_resets_context_witness :
    processRow c3sd 0 [some "", some "redwood", some "V"] initContext =
      some
        ({ woodType := some "redwood"
         , width := some "7*7"
         , status := some "V"
         , dimensions := some [some "PACK"]
         , packIndex := some 0 }, none) :=
  (header_row_resets_context c3sd 0 [some "", some "redwood", some "V"]
    initContext "redwood" 1 rfl rfl).trans rfl

/-! ## C2: the synthetic id -/

/-- The claim's id-prefix map: the prefix for each known wood type; any
other wood type has no map entry and its lookup stringifies as
"undefined". -/
def specIdPrefixFor : Option String → String
  | some s =>
      if s = "redwood" then "R1"
      else if s = "whitewood" then "W1"
      else "undefined"
  | none => "undefined"

/-- Remove all `.` and `*` characters. -/
def specStripDotsStars (s : String) : String :=
  ⟨s.data.filter (fun c => !(c = '.' || c = '*'))⟩

/-- The column of the first cell exactly equal to the amount (the next
non-blank cell after `packIndex`); -1 when the amount is null. -/
def specAmountIndex (row : Row) (k : Int) : Int :=
  match findNextNonEmptyCell row k with
  | none => -1
  | some a =>
      match row.findIdx? (fun c => decide (c = some a)) with
      | some n => (n : Int)
      | none => -1

/-- The dimensions-row entry at the given index; the missing-lookup cases
(index -1, out of range, hole) stringify as "undefined". -/
def specDimsFragment (d : Row) (i : Int) : String :=
  match cellAtInt d i with
  | some s => s
  | none => "undefined"

theorem strip_eq (s : String) :
    replaceAllChar (replaceAllChar s '.') '*' = specStripDotsStars s := by
  unfold replaceAllChar specStripDotsStars
  congr 1
  rw [List.filter_filter]
  congr 1
  funext c
  by_cases h1 : c = '.' <;> by_cases h2 : c = '*' <;> simp [h1, h2]

theorem idPrefixFor_eq (w : Option String) :
    jsTemplCell (ID_PREFIXES_lookup w) = specIdPrefixFor w := by
  cases w with
  | none => rfl
  | some s =>
    by_cases h1 : s = "redwood"
    · simp [ID_PREFIXES_lookup, specIdPrefixFor, h1, jsTemplCell]
    · by_cases h2 : s = "whitewood" <;>
        simp [ID_PREFIXES_lookup, specIdPrefixFor, h1, h2, jsTemplCell]

theorem findIdx?_jsNone (l : Row) : ∀ i : Nat,
    l.findIdx? (fun c => jsStrictEqCell c none) i = none := by
  induction l with
  | nil => intro i; rfl
  | cons a rest ih =>
    intro i
    have ha : jsStrictEqCell a none = false := by cases a <;> rfl
    rw [List.findIdx?_cons, ha]
    simp only [Bool.false_eq_true, if_false]
    exact ih (i + 1)

theorem amountIndex_eq (row : Row) (k : Int) :
    (match row.findIdx? (fun c => jsStrictEqCell c (findNextNonEmptyCell row k)) with
     | some n => (n : Int)
     | none => -1) = specAmountIndex row k := by
  unfold specAmountIndex
  cases ha : findNextNonEmptyCell row k with
  | none =>
    rw [findIdx?_jsNone row 0]
  | some a =>
    rw [show (fun c => jsStrictEqCell c (some a)) =
        (fun c => decide (c = some a)) from
      funext (fun c => jsStrictEqCell_some c a)]

theorem specDimsFragment_eq (d : Row) (i : Int) :
    jsTemplCell (cellAtInt d i) = specDimsFragment d i := by
  cases h : cellAtInt d i <;> simp [specDimsFragment, jsTemplCell, h]

/-- C2 (amended): every emitted record's id is the concatenation of the
wood-type prefix (the string "undefined" for an unmapped wood type), the
context's current width, the dimensions-row entry at `amountIndex`, and a
trailing literal "0", with all `.` and `*` characters then removed; when
`amountIndex` is -1 (amount absent or not found by exact match) the
missing lookup contributes the string "undefined" — not the empty string —
and no error is raised. -/
theorem getItemObject_id (row : Row) (ctx : Context) (rec : OutputRecord)
    (k : Int) (d : Row)
    (hk : ctx.packIndex = some k) (hd : ctx.dimensions = some d)
    (h : getItemObject row ctx = some rec) :
    rec.id = specStripDotsStars
      (specIdPrefixFor ctx.woodType ++ jsTemplNull ctx.width ++
        specDimsFragment d (specAmountIndex row k) ++ "0") := by
  unfold getItemObject at h
  rw [hk, hd] at h
  cases hs : ctx.status with
  | none =>
    rw [hs] at h
    exact absurd h (by simp)
  | some st =>
    rw [hs] at h
    simp only [Option.some.injEq] at h
    rw [← h]
    show replaceAllChar (replaceAllChar
        (jsTemplCell (ID_PREFIXES_lookup ctx.woodType) ++ jsTemplNull ctx.width ++
          jsTemplCell (cellAtInt d
            (match row.findIdx?
                (fun c => jsStrictEqCell c
                  (findNextNonEmptyCell row ((some k).getD 0))) with
             | some n => (n : Int)
             | none => -1)) ++ "0") '.') '*' = _
    rw [strip_eq]
    simp only [Option.getD_some]
    rw [idPrefixFor_eq, amountIndex_eq, specDimsFragment_eq]

/-- Witness for C2 (amended): the spec's worked example row under the demo
context. -/
theorem getItemObject_id_witness :
    ∃ rec, getItemObject [some "20231005.2", some "", some "150"] demoCtx = some rec ∧
      rec.id = specStripDotsStars
        (specIdPrefixFor demoCtx.woodType ++ jsTemplNull demoCtx.width ++
          specDimsFragment [some "PACK", some "100", some "200"]
            (specAmountIndex [some "20231005.2", some "", some "150"] 0) ++ "0") :=
  ⟨_, rfl, getItemObject_id [some "20231005.2", some "", some "150"] demoCtx _ 0
    [some "PACK", some "100", some "200"] rfl rfl rfl⟩

def c2wbA : List Sheet :=
  [[ [some "", some "redwood", some "V"]
   , [some "PACK", some "100", some "200"]
   , [some "50*60"]
   , [some "20231005.2", some "", some "150"] ]]

def c2recA : OutputRecord :=
  { id := "R150602000", packId := jsNumberString "20231005.2"
  , amount := some "150", status := "V" }

def c2wbB : List Sheet :=
  [[ [some "", some "redwood", some "V"]
   , [some "PACK", some "100", some "200"]
   , [some "50*60"]
   , [some "20231005.2"] ]]

def c2recB : OutputRecord :=
  { id := "R15060undefined0", packId := jsNumberString "20231005.2"
  , amount := none, status := "V" }

/-- C2 fails as stated, twice over: the emitted id of the spec's worked
example is "R150602000" — the concatenation carries a trailing literal "0"
absent from the claim's formula, whose value would be "R15060200"; and
when the amount lookup misses (`amountIndex` -1) the id fragment is the
string "undefined" (id "R15060undefined0"), not the empty string (which
would give "R15060"). -/
theorem record_id_counterexample :
    processWorkbook c2wbA = some [c2recA] ∧
    specStripDotsStars ("R1" ++ "50*60" ++ "200") = "R15060200" ∧
    c2recA.id ≠ "R15060200" ∧
    processWorkbook c2wbB = some [c2recB] ∧
    specStripDotsStars ("R1" ++ "50*60" ++ "") = "R15060" ∧
    c2recB.id ≠ "R15060" :=
  ⟨rfl, rfl, by decide, rfl, rfl, by decide⟩

/-! ## C4: context across sheet boundaries -/

/-- Whether the width-update step would fire at row `i` of the sheet. -/
def widthTriggered (sd : List Row) (i : Nat) : Bool :=
  match firstCellAt sd (i + 1) with
  | some s => s != "" && widthTest s
  | none => false

theorem widthUpdate_id_of_not_triggered (sd : List Row) (i : Nat) (ctx : Context)
    (h : widthTriggered sd i = false) : widthUpdate sd i ctx = ctx := by
  unfold widthTriggered at h
  unfold widthUpdate
  cases hc : firstCellAt sd (i + 1) with
  | none => rfl
  | some s =>
    rw [hc] at h
    replace h : (s != "" && widthTest s) = false := h
    simp [h]

/-- Unfolding `runRows` on a cons cell. -/
theorem runRows_cons (sd : List Row) (i : Nat) (row : Row) (rest : List Row)
    (ctx : Context) :
    runRows sd i (row :: rest) ctx =
      (match processRow sd i row ctx with
       | none => none
       | some (ctx', rec?) =>
         match runRows sd (i + 1) rest ctx' with
         | none => none
         | some (ctxF, out) => some (ctxF, rec?.toList ++ out)) := rfl

theorem processSheets_cons (s : Sheet) (ss : List Sheet) (ctx : Context) :
    processSheets (s :: ss) ctx =
      (match processSheet s ctx with
       | none => none
       | some (c1, o1) =>
         match processSheets ss c1 with
         | none => none
         | some (c2, o2) => some (c2, o1 ++ o2)) := rfl

theorem processSheets_cons_none {s : Sheet} {ss : List Sheet} {ctx : Context}
    (h : processSheet s ctx = none) : processSheets (s :: ss) ctx = none := by
  rw [processSheets_cons, h]

theorem processSheets_cons_some {s : Sheet} {ss : List Sheet} {ctx : Context}
    {c1 : Context} {o1 : List OutputRecord} (h : processSheet s ctx = some (c1, o1)) :
    processSheets (s :: ss) ctx =
      (match processSheets ss c1 with
       | none => none
       | some (c2, o2) => some (c2, o1 ++ o2)) := by
  rw [processSheets_cons, h]

/-- A non-header row with no width trigger leaves the context untouched
(and cannot throw when status and dimensions are set). -/
theorem processRow_steady (sd : List Row) (i : Nat) (row : Row) (ctx : Context)
    (st : String) (d : Row)
    (hw : row.find? woodCellMatch = none)
    (hst : ctx.status = some st) (hd : ctx.dimensions = some d)
    (ht : widthTriggered sd i = false) :
    ∃ rec?, processRow sd i row ctx = some (ctx, rec?) := by
  rw [processRow_nonHeader_eq sd i row ctx hw]
  unfold processDataRow
  rw [widthUpdate_id_of_not_triggered sd i ctx ht]
  cases hj : jsIndex row ctx.packIndex with
  | none => exact ⟨none, rfl⟩
  | some s =>
    by_cases hcond : (s != "" && packTest s) = true
    · obtain ⟨rec, hrec⟩ := getItemObject_isSome row ctx d st hd hst
      refine ⟨some rec, ?_⟩
      simp only [hcond, if_true, hrec]
    · have hcond' : (s != "" && packTest s) = false := by
        cases hx : (s != "" && packTest s)
        · rfl
        · exact absurd hx hcond
      refine ⟨none, ?_⟩
      simp only [hcond', Bool.false_eq_true, if_false]

/-- Walking a prefix of non-header rows with no width triggers keeps the
context fixed, and the matching data row then contributes its record to
the output. -/
theorem runRows_pre (sd : List Row) (row : Row) (post : List Row) (ctx : Context)
    (st : String) (d : Row) (k : Int) (s0 : String) (rec : OutputRecord)
    (hst : ctx.status = some st) (hd : ctx.dimensions = some d)
    (hk : ctx.packIndex = some k)
    (hw : row.find? woodCellMatch = none)
    (hcell : cellAtInt row k = some s0) (hs0 : s0 ≠ "") (hs0p : packTest s0 = true)
    (hrec : getItemObject row ctx = some rec) :
    ∀ (pre : List Row) (i : Nat),
      (∀ r ∈ pre, r.find? woodCellMatch = none) →
      (∀ j, j < pre.length → widthTriggered sd (i + j) = false) →
      ∀ cF out, runRows sd i (pre ++ row :: post) ctx = some (cF, out) → rec ∈ out := by
  intro pre
  induction pre with
  | nil =>
    intro i _ _ cF out hrun
    rw [List.nil_append] at hrun
    have hpr : processRow sd i row ctx = some (widthUpdate sd i ctx, some rec) := by
      rw [processRow_nonHeader_eq sd i row ctx hw]
      unfold processDataRow
      have hj : jsIndex row ctx.packIndex = some s0 := by
        rw [hk]
        exact hcell
      have hcond : (s0 != "" && packTest s0) = true := by
        rw [Bool.and_eq_true]
        exact ⟨by simpa using hs0, hs0p⟩
      rw [hj]
      simp only [hcond, if_true, hrec]
    rw [runRows_cons] at hrun
    cases hrest : runRows sd (i + 1) post (widthUpdate sd i ctx) with
    | none =>
      simp only [hpr, hrest] at hrun
      exact Option.noConfusion hrun
    | some p =>
      simp only [hpr, hrest] at hrun
      simp only [Option.some.injEq, Prod.mk.injEq] at hrun
      rw [← hrun.2]
      simp [Option.toList]
  | cons a pre ih =>
    intro i hpre htrig cF out hrun
    have ha : a.find? woodCellMatch = none := hpre a (List.mem_cons_self a pre)
    have ht0 : widthTriggered sd i = false := by
      have h0 := htrig 0 (by simp)
      simpa using h0
    obtain ⟨r?, hstep⟩ := processRow_steady sd i a ctx st d ha hst hd ht0
    rw [List.cons_append, runRows_cons] at hrun
    cases hrest : runRows sd (i + 1) (pre ++ row :: post) ctx with
    | none =>
      simp only [hstep, hrest] at hrun
      exact Option.noConfusion hrun
    | some p =>
      simp only [hstep, hrest] at hrun
      simp only [Option.some.injEq, Prod.mk.injEq] at hrun
      have hmem : rec ∈ p.2 := by
        refine ih (i + 1) (fun r hr => hpre r (List.mem_cons_of_mem a hr))
          (fun j hj => ?_) p.1 p.2 hrest
        have h2 := htrig (j + 1) (by simpa using Nat.succ_lt_succ hj)
        have e : i + (j + 1) = i + 1 + j := by omega
        rw [e] at h2
        exact h2
      rw [← hrun.2]
      exact List.mem_append.mpr (Or.inr hmem)

theorem processSheets_append_some (b : List Sheet) :
    ∀ (a : List Sheet) (ctx c : Context) (o : List OutputRecord),
      processSheets a ctx = some (c, o) →
      processSheets (a ++ b) ctx =
        (match processSheets b c with
         | none => none
         | some (c2, o2) => some (c2, o ++ o2)) := by
  intro a
  induction a with
  | nil =>
    intro ctx c o ha
    simp only [processSheets, Option.some.injEq, Prod.mk.injEq] at ha
    obtain ⟨hc, ho⟩ := ha
    subst hc
    subst ho
    rw [List.nil_append]
    cases h : processSheets b ctx with
    | none => rfl
    | some p =>
      obtain ⟨c2, o2⟩ := p
      simp
  | cons s a ih =>
    intro ctx c o ha
    cases h1 : processSheet s ctx with
    | none =>
      rw [processSheets_cons_none h1] at ha
      exact Option.noConfusion ha
    | some p =>
      obtain ⟨c1, o1⟩ := p
      rw [processSheets_cons_some h1] at ha
      cases h2 : processSheets a c1 with
      | none =>
        simp only [h2] at ha
        exact Option.noConfusion ha
      | some q =>
        obtain ⟨c2, o2⟩ := q
        simp only [h2, Option.some.injEq, Prod.mk.injEq] at ha
        obtain ⟨hc, ho⟩ := ha
        subst hc
        subst ho
        rw [List.cons_append, processSheets_cons_some h1, ih c1 c2 o2 h2]
        cases h3 : processSheets b c2 with
        | none => rfl
        | some r =>
          obtain ⟨c3, o3⟩ := r
          simp [List.append_assoc]

/-- C4 (amended): once a section header in an earlier sheet has left a
context (column `packIndex`, status and dimensions set), a matching data
row in a later sheet — with no intervening header row **and no intervening
width-update trigger** before it — emits the record built from that
earlier context, provided the whole workbook processes without error. -/
theorem context_persists_across_sheets
    (ss1 : List Sheet) (ctx1 : Context) (out1 : List OutputRecord)
    (pre post : List Row) (row : Row)
    (k : Int) (st : String) (d : Row) (s0 : String)
    (rec : OutputRecord) (outAll : List OutputRecord)
    (h1 : processSheets ss1 initContext = some (ctx1, out1))
    (hk : ctx1.packIndex = some k) (hst : ctx1.status = some st)
    (hd : ctx1.dimensions = some d)
    (hpre : ∀ r ∈ pre, r.find? woodCellMatch = none)
    (htrig : ∀ j, j < pre.length → widthTriggered (pre ++ row :: post) j = false)
    (hw : row.find? woodCellMatch = none)
    (hcell : cellAtInt row k = some s0) (hs0 : s0 ≠ "") (hs0p : packTest s0 = true)
    (hrec : getItemObject row ctx1 = some rec)
    (hall : processWorkbook (ss1 ++ [pre ++ row :: post]) = some outAll) :
    rec ∈ outAll := by
  unfold processWorkbook at hall
  rw [processSheets_append_some [pre ++ row :: post] ss1 initContext ctx1 out1 h1]
    at hall
  cases h2 : processSheets [pre ++ row :: post] ctx1 with
  | none =>
    rw [h2] at hall
    simp only [Option.map_none'] at hall
    exact Option.noConfusion hall
  | some p =>
    obtain ⟨cF, o2⟩ := p
    rw [h2] at hall
    simp only [Option.map_some', Option.some.injEq] at hall
    cases h3 : processSheet (pre ++ row :: post) ctx1 with
    | none =>
      rw [processSheets_cons_none h3] at h2
      exact Option.noConfusion h2
    | some q =>
      obtain ⟨cQ, oQ⟩ := q
      rw [processSheets_cons_some h3] at h2
      have hnil : processSheets ([] : List Sheet) cQ = some (cQ, []) := rfl
      rw [hnil] at h2
      simp only [Option.some.injEq, Prod.mk.injEq, List.append_nil] at h2
      have hmem : rec ∈ oQ :=
        runRows_pre (pre ++ row :: post) row post ctx1 st d k s0 rec
          hst hd hk hw hcell hs0 hs0p hrec pre 0 hpre
          (fun j hj => by simpa using htrig j hj) cQ oQ h3
      rw [← hall]
      rw [← h2.2]
      exact List.mem_append.mpr (Or.inr hmem)

def c4s1 : Sheet :=
  [ [some "", some "redwood", some "V"]
  , [some "PACK", some "100", some "200"]
  , [some "50*60"] ]

def c4ctx1 : Context :=
  { woodType := some "redwood", width := some "50*60", status := some "V"
  , dimensions := some [some "PACK", some "100", some "200"], packIndex := some 0 }

def c4row : Row := [some "20231005.2", some "", some "150"]

def c4rec : OutputRecord :=
  { id := "R150602000", packId := jsNumberString "20231005.2"
  , amount := some "150", status := "V" }

/-- Witness for C4 (amended): sheet 1 holds the only header; sheet 2 is a
single matching data row and its record (built from sheet 1's context) is
in the output. -/
theorem context_persists_across_sheets_witness :
    processWorkbook [c4s1, [c4row]] = some [c4rec] ∧ c4rec ∈ [c4rec] := by
  refine ⟨rfl, ?_⟩
  exact context_persists_across_sheets [c4s1] c4ctx1 [] [] [] c4row 0 "V"
    [some "PACK", some "100", some "200"] "20231005.2" c4rec [c4rec]
    rfl rfl rfl rfl
    (fun r hr => absurd hr (List.not_mem_nil r))
    (fun j hj => absurd hj (Nat.not_lt_zero j))
    rfl rfl (by decide) rfl rfl rfl

def c4s2 : Sheet :=
  [ [], [some "888*999"], [some "20231005.2", some "", some "150"] ]

def c4recNew : OutputRecord :=
  { id := "R18889992000", packId := jsNumberString "20231005.2"
  , amount := some "150", status := "V" }

/-- C4 fails as stated: sheet 2 contains no header row (each of its three
rows fails the wood-cell search), yet the record its data row emits is not
the record built from sheet 1's context — a width-update row ("888*999" as
the second row's first cell) changed `width` in between, so the id carries
"888*999" instead of sheet 1's "50*60". -/
theorem cross_sheet_counterexample :
    processSheets [c4s1] initContext = some (c4ctx1, []) ∧
    ([] : Row).find? woodCellMatch = none ∧
    ([some "888*999"] : Row).find? woodCellMatch = none ∧
    ([some "20231005.2", some "", some "150"] : Row).find? woodCellMatch = none ∧
    processWorkbook [c4s1, c4s2] = some [c4recNew] ∧
    getItemObject [some "20231005.2", some "", some "150"] c4ctx1 = some c4rec ∧
    c4recNew ≠ c4rec :=
  ⟨rfl, rfl, rfl, rfl, rfl, rfl, by decide⟩
